import Mathlib

/-
Shallow embedding of src/bob/bio/face/extractor/LGBPHS.py, the LGBPHS
(local Gabor binary pattern histogram sequence) feature extractor.

Modelling choices:
* Histogram values are rationals: the extractor only moves float64 values
  around and compares them with 0.0; it performs no arithmetic on them.
* A numpy 2-D array is a total entry function together with its shape
  (`Mat`); the returned feature array is `FeatArray` (1-D or 2-D).
* The black-box primitives (`bob.ip.gabor.Transform.transform`,
  `numpy.abs`, `numpy.angle`, `bob.ip.base.lbphs`) are explicit function
  parameters bundled in `Prims`; the spec treats them as black-box library
  calls whose orchestration is the extractor's responsibility.  The LBP
  configuration is fixed at construction, so it is folded into the
  `lbphs` parameter; the image and the block geometry are passed
  explicitly, as in the source (line 161).
* Python exceptions become `Except Err`; mutation of `self` becomes
  explicit state passing of `LGBPHSState`.
-/

-- A numpy 2-D ndarray over α: shape (rows, cols) plus a total entry map.
structure Mat (α : Type) where
  rows : Nat
  cols : Nat
  entry : Nat → Nat → α

abbrev MatQ := Mat ℚ

abbrev CMat := Mat (ℚ × ℚ)

-- numpy dtypes that matter for the input assertions (line 143).
inductive NpDtype where
  | float64
  | float32
  | int64
  | complex128
deriving DecidableEq

-- The input image: ndim and dtype are data because the asserts at lines
-- 141-143 inspect them; `isinstance(image, numpy.ndarray)` is trivially
-- true in the model since NpImage is the only array type.
structure NpImage where
  ndim : Nat
  shape : List Nat
  dtype : NpDtype
  px : Nat → Nat → ℚ

-- Error taxonomy of the embedding.  `invalidInput` models the
-- AssertionError of lines 141-143 (the spec's InvalidInputError);
-- `blockOverlapTooLarge` the ValueError of line 73;
-- `sparseSplitConflict` the ValueError of line 102; `invalidSplit` the
-- ValueError of line 176 (the spec's InvalidConfigurationError at call
-- time); `sparsifyAssert` the assert of line 129; `noneAttribute` the
-- AttributeError that `_sparsify(None)` would raise at line 126.
inductive Err where
  | invalidInput
  | blockOverlapTooLarge
  | sparseSplitConflict
  | invalidSplit
  | sparsifyAssert
  | noneAttribute
deriving DecidableEq

-- The feature array returned by __call__: numpy 1-D or 2-D float64.
inductive FeatArray where
  | one (len : Nat) (data : Nat → ℚ)
  | two (rows cols : Nat) (data : Nat → Nat → ℚ)

def FeatArray.shape : FeatArray → List Nat
  | FeatArray.one n _ => [n]
  | FeatArray.two r c _ => [r, c]

def FeatArray.get1 : FeatArray → Nat → ℚ
  | FeatArray.one _ d, i => d i
  | FeatArray.two _ _ _, _ => 0

def FeatArray.get2 : FeatArray → Nat → Nat → ℚ
  | FeatArray.one _ _, _, _ => 0
  | FeatArray.two _ _ d, p, q => d p q

-- block_size / block_overlap may be a single int or a pair (lines 19-20).
inductive IntOrPair where
  | int (v : Int)
  | pair (a b : Int)
deriving DecidableEq

-- Lines 70-71: `x if isinstance(x, (tuple, list)) else (x, x)`.
def normPair : IntOrPair → Int × Int
  | IntOrPair.int v => (v, v)
  | IntOrPair.pair a b => (a, b)

def splitBlocksStr : String := "blocks"

def splitWaveletsStr : String := "wavelets"

def splitBothStr : String := "both"

def emptyStr : String := ""

-- Python truthiness of `self.split` at line 101: None and the empty
-- string are falsy, every other string is truthy.
def truthySplit : Option String → Bool
  | none => false
  | some s => decide (s ≠ emptyStr)

-- The configuration stored on the instance after __init__.  The
-- float-valued Gabor and LBP parameters are consumed only by the
-- black-box primitives and are therefore folded into `Prims`.
structure Config where
  blockSize : Int × Int
  blockOverlap : Int × Int
  gaborDirections : Nat
  gaborScales : Nat
  usePhases : Bool
  sparse : Bool
  split : Option String
deriving DecidableEq

-- The arguments of __init__ that the validation logic inspects.
structure InitArgs where
  blockSize : IntOrPair
  blockOverlap : IntOrPair
  gaborDirections : Nat
  gaborScales : Nat
  usePhases : Bool
  sparse : Bool
  split : Option String
deriving DecidableEq

-- Default of the block_overlap parameter (line 20).
def defaultBlockOverlap : IntOrPair := IntOrPair.int 0

-- __init__ (lines 69-102): normalize the block geometry, reject an
-- overlap larger than the block size (lines 72-73), then reject a truthy
-- sparse together with a truthy split (lines 101-102).  The library
-- object constructions in between are black boxes and raise nothing in
-- the model.
def initLGBPHS (a : InitArgs) : Except Err Config :=
  let bs := normPair a.blockSize
  let bo := normPair a.blockOverlap
  if bs.1 < bo.1 ∨ bs.2 < bo.2 then Except.error Err.blockOverlapTooLarge
  else if a.sparse && truthySplit a.split then Except.error Err.sparseSplitConflict
  else Except.ok ⟨bs, bo, a.gaborDirections, a.gaborScales, a.usePhases, a.sparse, a.split⟩

-- Modelled from the spec: `self.gwt.number_of_wavelets` is a property of
-- the black-box bob.ip.gabor.Transform; the spec (section 3) states
-- wavelet_count = scales × directions.
def numberOfWavelets (cfg : Config) : Nat := cfg.gaborScales * cfg.gaborDirections

-- Line 153: jet_length = number_of_wavelets * (2 if use_phases else 1).
def jetLength (cfg : Config) : Nat :=
  numberOfWavelets cfg * (if cfg.usePhases then 2 else 1)

-- The black-box primitives, as total functions.  `gwt img j` is the j-th
-- complex response plane written by gwt.transform; `lbphs` receives the
-- real plane and the block geometry (line 161); `alloc1` / `alloc2` model
-- the arbitrary contents of an uninitialized numpy.ndarray (line 180).
structure Prims where
  gwt : NpImage → Nat → CMat
  npAbs : CMat → MatQ
  npAngle : CMat → MatQ
  lbphs : MatQ → Int × Int → Int × Int → MatQ
  alloc1 : Nat → ℚ
  alloc2 : Nat → Nat → ℚ

-- Lines 159-161: abs_blocks = lbphs(numpy.abs(trafo_image[j]), ...).
def absBlocksOf (cfg : Config) (p : Prims) (img : NpImage) (j : Nat) : MatQ :=
  p.lbphs (p.npAbs (p.gwt img j)) cfg.blockSize cfg.blockOverlap

-- Lines 187-189: phase_blocks = lbphs(numpy.angle(trafo_image[j]), ...).
def phaseBlocksOf (cfg : Config) (p : Prims) (img : NpImage) (j : Nat) : MatQ :=
  p.lbphs (p.npAngle (p.gwt img j)) cfg.blockSize cfg.blockOverlap

-- numpy slice assignment a[start : start+len] = row on a 1-D array.
-- Exact for writes inside the array: numpy instead clips a slice at the
-- array end and raises a broadcast ValueError on the length mismatch.
-- Theorems that conclude success of a whole call therefore carry
-- hypotheses keeping every write range inside the allocated array.
def setSlice (a : Nat → ℚ) (start len : Nat) (row : Nat → ℚ) : Nat → ℚ :=
  fun i => if start ≤ i ∧ i < start + len then row (i - start) else a i

-- numpy slice assignment a[r, start : start+len] = row on a 2-D array.
-- Exact for rows inside the array; numpy raises an IndexError for a row
-- index out of range (reachable only when a later pass reports more
-- blocks than pass 0).  The layout theorems below read in-range rows
-- and columns only.
def setRowSlice (a : Nat → Nat → ℚ) (r start len : Nat) (row : Nat → ℚ) : Nat → Nat → ℚ :=
  fun p q => if p = r ∧ start ≤ q ∧ q < start + len then row (q - start) else a p q

-- _fill, split None branch (lines 108-111): start = j*n_bins*n_blocks,
-- then for b in range(n_blocks): a[start+b*n_bins : start+(b+1)*n_bins].
def fillNone (nBins nBlocks : Nat) (d : Nat → ℚ) (blocks : MatQ) (j : Nat) : Nat → ℚ :=
  (List.range nBlocks).foldl
    (fun acc b => setSlice acc (j * nBins * nBlocks + b * nBins) nBins (blocks.entry b)) d

-- _fill, split 'blocks' branch (lines 112-114): a[b, j*n_bins:(j+1)*n_bins].
def fillBlocks (nBins nBlocks : Nat) (d : Nat → Nat → ℚ) (blocks : MatQ) (j : Nat) :
    Nat → Nat → ℚ :=
  (List.range nBlocks).foldl
    (fun acc b => setRowSlice acc b (j * nBins) nBins (blocks.entry b)) d

-- _fill, split 'wavelets' branch (lines 115-117): a[j, b*n_bins:(b+1)*n_bins].
def fillWavelets (nBins nBlocks : Nat) (d : Nat → Nat → ℚ) (blocks : MatQ) (j : Nat) :
    Nat → Nat → ℚ :=
  (List.range nBlocks).foldl
    (fun acc b => setRowSlice acc j (b * nBins) nBins (blocks.entry b)) d

-- _fill, split 'both' branch (lines 118-120): a[j*n_blocks + b, 0:n_bins].
def fillBoth (nBins nBlocks : Nat) (d : Nat → Nat → ℚ) (blocks : MatQ) (j : Nat) :
    Nat → Nat → ℚ :=
  (List.range nBlocks).foldl
    (fun acc b => setRowSlice acc (j * nBlocks + b) 0 nBins (blocks.entry b)) d

-- _fill (lines 105-120).  The branching is on self.split only; the array
-- dimensionality always matches the split mode when called from __call__
-- (the allocation at line 180 uses the same split dispatch), so the
-- fall-through arms keeping the array unchanged are unreachable there,
-- matching the missing else of the Python method.
def fill (split : Option String) (nBins nBlocks : Nat) (arr : FeatArray) (blocks : MatQ)
    (j : Nat) : FeatArray :=
  if split = none then
    match arr with
    | FeatArray.one len d => FeatArray.one len (fillNone nBins nBlocks d blocks j)
    | a => a
  else if split = some splitBlocksStr then
    match arr with
    | FeatArray.two r c d => FeatArray.two r c (fillBlocks nBins nBlocks d blocks j)
    | a => a
  else if split = some splitWaveletsStr then
    match arr with
    | FeatArray.two r c d => FeatArray.two r c (fillWavelets nBins nBlocks d blocks j)
    | a => a
  else if split = some splitBothStr then
    match arr with
    | FeatArray.two r c d => FeatArray.two r c (fillBoth nBins nBlocks d blocks j)
    | a => a
  else arr

-- The index/append loop of _sparsify (lines 130-135) collects exactly the
-- positions of range(n) whose value is nonzero, in ascending order.
def nzIdx (n : Nat) (d : Nat → ℚ) : List Nat :=
  (List.range n).filter (fun i => decide (d i ≠ 0))

-- _sparsify (lines 122-136): identity when sparse is off; a 2-row array
-- is returned unchanged; a 1-D array is converted to the 2-row sparse
-- form numpy.array([indices, values], dtype=float64); any other shape
-- trips the assert at line 129.
def sparsifyArr (sparse : Bool) (a : FeatArray) : Except Err FeatArray :=
  if sparse then
    match a with
    | FeatArray.two r c d =>
        if r = 2 then Except.ok (FeatArray.two r c d) else Except.error Err.sparsifyAssert
    | FeatArray.one n d =>
        Except.ok (FeatArray.two 2 (nzIdx n d).length
          (fun r c =>
            if r = 0 then (((nzIdx n d).getD c 0 : Nat) : ℚ)
            else if r = 1 then d ((nzIdx n d).getD c 0)
            else 0))
  else Except.ok a

-- Shape dispatch of __call__ (lines 167-176), including the ValueError
-- for an unrecognized split value.
def shapeOf (split : Option String) (nBlocks nBins jetLen : Nat) : Except Err (List Nat) :=
  if split = none then Except.ok [nBlocks * nBins * jetLen]
  else if split = some splitBlocksStr then Except.ok [nBlocks, nBins * jetLen]
  else if split = some splitWaveletsStr then Except.ok [jetLen, nBins * nBlocks]
  else if split = some splitBothStr then Except.ok [jetLen * nBlocks, nBins]
  else Except.error Err.invalidSplit

-- The shape value for the four recognized split modes (total companion of
-- shapeOf, used to state the loop characterization).
def denseShape (split : Option String) (nBlocks nBins jetLen : Nat) : List Nat :=
  if split = none then [nBlocks * nBins * jetLen]
  else if split = some splitBlocksStr then [nBlocks, nBins * jetLen]
  else if split = some splitWaveletsStr then [jetLen, nBins * nBlocks]
  else [jetLen * nBlocks, nBins]

-- The recognized split values.
def splitOk (split : Option String) : Prop :=
  split = none ∨ split = some splitBlocksStr ∨ split = some splitWaveletsStr ∨
    split = some splitBothStr

instance (split : Option String) : Decidable (splitOk split) := by
  unfold splitOk; infer_instance

-- numpy.ndarray(shape, 'float64') at line 180: uninitialized contents.
def allocArr (p : Prims) : List Nat → FeatArray
  | [n] => FeatArray.one n p.alloc1
  | [r, c] => FeatArray.two r c p.alloc2
  | _ => FeatArray.one 0 p.alloc1

-- The cached transform buffer self.trafo_image: its ndarray shape
-- (number_of_wavelets, h, w) and its complex planes.
structure TrafoBuf where
  dims : Nat × Nat × Nat
  planes : Nat → CMat

-- The mutable instance state touched by __call__: self.trafo_image
-- (line 85 initializes it to None), self.n_bins and self.n_blocks
-- (created on first call, lines 164-165).
structure LGBPHSState where
  trafoImage : Option TrafoBuf
  nBins : Option Nat
  nBlocks : Option Nat

def freshPlanes : Nat → CMat := fun _ => ⟨0, 0, fun _ _ => (0, 0)⟩

-- Lines 146-148: reallocate the trafo buffer when it is None or its
-- spatial shape (shape[1:3]) differs from the image shape.  The fresh
-- planes are uninitialized; transform overwrites them immediately.
def reallocTrafo (w0 h w : Nat) : Option TrafoBuf → TrafoBuf
  | none => ⟨(w0, h, w), freshPlanes⟩
  | some b => if (b.dims.2.1, b.dims.2.2) ≠ (h, w) then ⟨(w0, h, w), freshPlanes⟩ else b

-- The asserts at lines 141-143; isinstance(image, numpy.ndarray) is
-- trivially true in the model.
def inputCheck (img : NpImage) : Bool :=
  decide (img.ndim = 2) && decide (img.dtype = NpDtype.float64)

-- One iteration of the loop at lines 157-191 for wavelet index j: set
-- self.n_bins / self.n_blocks from abs_blocks (164-165), compute the
-- output shape or raise (167-176), allocate the array on the first pass
-- (179-180), fill the magnitude histograms (183), then optionally the
-- phase histograms at pass index j + number_of_wavelets (185-191).
-- The state is returned even on error: the attribute writes precede the
-- raise.
def loopBody (cfg : Config) (p : Prims) (img : NpImage) (jetLen w0 : Nat)
    (st : LGBPHSState) (arr : Option FeatArray) (j : Nat) :
    LGBPHSState × Except Err (Option FeatArray) :=
  let ab := absBlocksOf cfg p img j
  let st1 : LGBPHSState := ⟨st.trafoImage, some ab.cols, some ab.rows⟩
  match shapeOf cfg.split ab.rows ab.cols jetLen with
  | Except.error e => (st1, Except.error e)
  | Except.ok shp =>
      let arr0 := match arr with
        | none => allocArr p shp
        | some a => a
      let arr1 := fill cfg.split ab.cols ab.rows arr0 ab j
      let arr2 := if cfg.usePhases then
          fill cfg.split ab.cols ab.rows arr1 (phaseBlocksOf cfg p img j) (j + w0)
        else arr1
      (st1, Except.ok (some arr2))

-- The loop over the wavelet indices; stops at the first raised error,
-- keeping the state mutated so far (Python exception semantics).
def loopGo (cfg : Config) (p : Prims) (img : NpImage) (jetLen w0 : Nat) :
    List Nat → LGBPHSState → Option FeatArray → LGBPHSState × Except Err (Option FeatArray)
  | [], st, arr => (st, Except.ok arr)
  | j :: rest, st, arr =>
    match loopBody cfg p img jetLen w0 st arr j with
    | (st1, Except.ok arr1) => loopGo cfg p img jetLen w0 rest st1 arr1
    | (st1, Except.error e) => (st1, Except.error e)

-- __call__ (lines 139-195): input asserts, trafo buffer lifecycle and
-- transform, the wavelet loop, and the final _sparsify.  When the loop
-- never ran (zero wavelets) the Python code returns None when sparse is
-- off and raises an AttributeError inside _sparsify otherwise.
def call (cfg : Config) (p : Prims) (st : LGBPHSState) (img : NpImage) :
    Except Err (Option FeatArray) × LGBPHSState :=
  if inputCheck img then
    let w0 := numberOfWavelets cfg
    let h := img.shape.getD 0 0
    let w := img.shape.getD 1 0
    let buf : TrafoBuf := ⟨(reallocTrafo w0 h w st.trafoImage).dims, fun j => p.gwt img j⟩
    let st1 : LGBPHSState := ⟨some buf, st.nBins, st.nBlocks⟩
    match loopGo cfg p img (jetLength cfg) w0 (List.range w0) st1 none with
    | (st2, Except.error e) => (Except.error e, st2)
    | (st2, Except.ok none) =>
        (if cfg.sparse then Except.error Err.noneAttribute else Except.ok none, st2)
    | (st2, Except.ok (some a)) => ((sparsifyArr cfg.sparse a).map some, st2)
  else (Except.error Err.invalidInput, st)

-- Derived pure form of one loop iteration once the array exists (used to
-- characterize the loop): magnitude fill, then phase fill at j + w0.
def passFill (cfg : Config) (p : Prims) (img : NpImage) (w0 : Nat) (a : FeatArray) (j : Nat) :
    FeatArray :=
  let ab := absBlocksOf cfg p img j
  let a1 := fill cfg.split ab.cols ab.rows a ab j
  if cfg.usePhases then
    fill cfg.split ab.cols ab.rows a1 (phaseBlocksOf cfg p img j) (j + w0)
  else a1

-- passFill restricted to the flat (split = None) layout, at the level of
-- the underlying 1-D data.
def flatStep (cfg : Config) (p : Prims) (img : NpImage) (w0 : Nat) (d : Nat → ℚ) (j : Nat) :
    Nat → ℚ :=
  let ab := absBlocksOf cfg p img j
  let d1 := fillNone ab.cols ab.rows d ab j
  if cfg.usePhases then fillNone ab.cols ab.rows d1 (phaseBlocksOf cfg p img j) (j + w0)
  else d1

-- One loop step on the optional array, allocation included.
def arrStep (cfg : Config) (p : Prims) (img : NpImage) (jetLen w0 : Nat)
    (arr : Option FeatArray) (j : Nat) : FeatArray :=
  passFill cfg p img w0
    (match arr with
     | none =>
         allocArr p (denseShape cfg.split (absBlocksOf cfg p img j).rows
           (absBlocksOf cfg p img j).cols jetLen)
     | some a => a) j

-- The order of the _fill events emitted by the loop at lines 157-191:
-- pass index paired with a phase flag; each iteration appends the
-- magnitude event (j, false) and then, when phases are enabled, the phase
-- event (j + w0, true).
def passTrace (usePhases : Bool) (w0 : Nat) : List (Nat × Bool) :=
  (List.range w0).foldl
    (fun acc j => (acc ++ [(j, false)]) ++ (if usePhases then [(j + w0, true)] else [])) []

-- Accessors on call results used to state the theorems.
def resultShape (r : Except Err (Option FeatArray)) : Option (List Nat) :=
  match r with
  | Except.ok (some a) => some a.shape
  | _ => none

def resultAt (r : Except Err (Option FeatArray)) (i : Nat) : ℚ :=
  match r with
  | Except.ok (some a) => a.get1 i
  | _ => 0

def exShape (r : Except Err FeatArray) : Option (List Nat) :=
  match r with
  | Except.ok a => some a.shape
  | _ => none

def exGet2 (r : Except Err FeatArray) (p q : Nat) : ℚ :=
  match r with
  | Except.ok a => a.get2 p q
  | _ => 0

-- Concrete instances for counterexamples and witnesses.

def st0 : LGBPHSState := ⟨none, none, none⟩

def imgStd : NpImage := ⟨2, [4, 4], NpDtype.float64, fun _ _ => 0⟩

def imgEmpty : NpImage := ⟨2, [0, 0], NpDtype.float64, fun _ _ => 0⟩

def img3d : NpImage := ⟨3, [2, 4, 4], NpDtype.float64, fun _ _ => 0⟩

def imgInt : NpImage := ⟨2, [4, 4], NpDtype.int64, fun _ _ => 0⟩

-- Primitives whose lbphs output depends on the wavelet index: the j-th
-- transform plane encodes j in its row count, npAbs passes it through,
-- and lbphs returns 2 blocks of 2 bins for plane 0 but 1 block of 2 bins
-- for every later plane, with entry 100*j + 10*b + i.
def primsVar : Prims :=
  ⟨fun _ j => ⟨j, 0, fun _ _ => (0, 0)⟩,
   fun m => ⟨m.rows, 0, fun _ _ => 0⟩,
   fun m => ⟨m.rows, 0, fun _ _ => 0⟩,
   fun m _ _ => ⟨if m.rows = 0 then 2 else 1, 2,
     fun b i => ((100 * m.rows + 10 * b + i : Nat) : ℚ)⟩,
   fun _ => 0, fun _ _ => 0⟩

-- Primitives returning a single 1x1 zero histogram for every plane.
def primsZero : Prims :=
  ⟨fun _ _ => ⟨0, 0, fun _ _ => (0, 0)⟩,
   fun _ => ⟨0, 0, fun _ _ => 0⟩,
   fun _ => ⟨0, 0, fun _ _ => 0⟩,
   fun _ _ _ => ⟨1, 1, fun _ _ => 0⟩,
   fun _ => 0, fun _ _ => 0⟩

-- Primitives where magnitude and phase planes lead to distinct 1x1
-- histograms: magnitude blocks hold 3, phase blocks hold 4.
def primsMagPhase : Prims :=
  ⟨fun _ _ => ⟨1, 1, fun _ _ => (5, 7)⟩,
   fun _ => ⟨1, 1, fun _ _ => 3⟩,
   fun _ => ⟨1, 1, fun _ _ => 4⟩,
   fun m _ _ => ⟨1, 1, fun _ _ => m.entry 0 0⟩,
   fun _ => 0, fun _ _ => 0⟩

-- scales=2, directions=1, no phases, dense, split=None.
def cfgVar : Config := ⟨(8, 8), (0, 0), 1, 2, false, false, none⟩

-- scales=1, directions=1, sparse, split=None.
def cfgSparse : Config := ⟨(8, 8), (0, 0), 1, 1, false, true, none⟩

-- scales=1, directions=1, dense, split=None.
def cfgPlain : Config := ⟨(8, 8), (0, 0), 1, 1, false, false, none⟩

-- scales=1, directions=1, phases on, dense, split=None.
def cfgPhase : Config := ⟨(8, 8), (0, 0), 1, 1, true, false, none⟩

-- scales=1, directions=1, dense, split='blocks'.
def cfgBlocks : Config := ⟨(8, 8), (0, 0), 1, 1, false, false, some splitBlocksStr⟩

def garbageStr : String := "garbage"

-- scales=1, directions=1, dense, unrecognized split value.
def cfgBadSplit : Config := ⟨(8, 8), (0, 0), 1, 1, false, false, some garbageStr⟩

-- sparse together with the empty-string split: line 101 does not fire.
def argsEmptySplit : InitArgs :=
  ⟨IntOrPair.pair 4 4, IntOrPair.int 0, 8, 5, false, true, some emptyStr⟩

def argsOverlapBad : InitArgs :=
  ⟨IntOrPair.pair 4 4, IntOrPair.pair 5 5, 8, 5, false, false, none⟩

def argsSparseBlocks : InitArgs :=
  ⟨IntOrPair.pair 4 4, IntOrPair.int 0, 8, 5, false, true, some splitBlocksStr⟩

def argsGood : InitArgs :=
  ⟨IntOrPair.int 4, defaultBlockOverlap, 8, 5, false, false, none⟩

-- Generic lemmas about the slice-assignment folds of _fill.

lemma foldl_setSlice_get (nb : Nat) (f : Nat → Nat → ℚ) :
    ∀ (cnt start : Nat) (a : Nat → ℚ) (b i : Nat), b < cnt → i < nb →
      ((List.range cnt).foldl (fun acc b' => setSlice acc (start + b' * nb) nb (f b')) a)
        (start + b * nb + i) = f b i := by
  intro cnt
  induction cnt with
  | zero => intro start a b i hb _; exact absurd hb (Nat.not_lt_zero b)
  | succ n ih =>
    intro start a b i hb hi
    rw [List.range_succ, List.foldl_append, List.foldl_cons, List.foldl_nil]
    simp only [setSlice]
    rcases Nat.lt_succ_iff_lt_or_eq.mp hb with h | h
    · have hs : (b + 1) * nb = b * nb + nb := by ring
      have hmul : (b + 1) * nb ≤ n * nb := Nat.mul_le_mul h (Nat.le_refl nb)
      rw [if_neg (by omega)]
      exact ih start a b i h hi
    · subst h
      rw [if_pos ⟨by omega, by omega⟩]
      congr 1
      omega

lemma foldl_setSlice_outside (nb : Nat) (f : Nat → Nat → ℚ) :
    ∀ (cnt start : Nat) (a : Nat → ℚ) (pos : Nat),
      pos < start ∨ start + cnt * nb ≤ pos →
      ((List.range cnt).foldl (fun acc b' => setSlice acc (start + b' * nb) nb (f b')) a)
        pos = a pos := by
  intro cnt
  induction cnt with
  | zero => intro start a pos _; rfl
  | succ n ih =>
    intro start a pos hpos
    rw [List.range_succ, List.foldl_append, List.foldl_cons, List.foldl_nil]
    simp only [setSlice]
    have hs : (n + 1) * nb = n * nb + nb := by ring
    rw [if_neg (by omega)]
    exact ih start a pos (by omega)

lemma foldl_setRowSlice_get (nb : Nat) (rowOf colStart : Nat → Nat) (f : Nat → Nat → ℚ)
    (hsep : ∀ b b', b < b' → rowOf b ≠ rowOf b' ∨ colStart b + nb ≤ colStart b' ∨
      colStart b' + nb ≤ colStart b) :
    ∀ (cnt : Nat) (a : Nat → Nat → ℚ) (b i : Nat), b < cnt → i < nb →
      ((List.range cnt).foldl
        (fun acc b' => setRowSlice acc (rowOf b') (colStart b') nb (f b')) a)
        (rowOf b) (colStart b + i) = f b i := by
  intro cnt
  induction cnt with
  | zero => intro a b i hb _; exact absurd hb (Nat.not_lt_zero b)
  | succ n ih =>
    intro a b i hb hi
    rw [List.range_succ, List.foldl_append, List.foldl_cons, List.foldl_nil]
    simp only [setRowSlice]
    rcases Nat.lt_succ_iff_lt_or_eq.mp hb with h | h
    · rw [if_neg ?hne]
      · exact ih a b i h hi
      case hne =>
        rintro ⟨h1, h2, h3⟩
        rcases hsep b n h with hr | hc | hc
        · exact hr h1
        · omega
        · omega
    · subst h
      rw [if_pos ⟨rfl, by omega, by omega⟩]
      congr 1
      omega

-- The four _fill branches at the matching array dimensionality.

lemma fill_none_one (nb nB len : Nat) (d : Nat → ℚ) (blocks : MatQ) (j : Nat) :
    fill none nb nB (FeatArray.one len d) blocks j
      = FeatArray.one len (fillNone nb nB d blocks j) := rfl

lemma fill_blocks_two (nb nB r c : Nat) (d : Nat → Nat → ℚ) (blocks : MatQ) (j : Nat) :
    fill (some splitBlocksStr) nb nB (FeatArray.two r c d) blocks j
      = FeatArray.two r c (fillBlocks nb nB d blocks j) := rfl

lemma fill_wavelets_two (nb nB r c : Nat) (d : Nat → Nat → ℚ) (blocks : MatQ) (j : Nat) :
    fill (some splitWaveletsStr) nb nB (FeatArray.two r c d) blocks j
      = FeatArray.two r c (fillWavelets nb nB d blocks j) := rfl

lemma fill_both_two (nb nB r c : Nat) (d : Nat → Nat → ℚ) (blocks : MatQ) (j : Nat) :
    fill (some splitBothStr) nb nB (FeatArray.two r c d) blocks j
      = FeatArray.two r c (fillBoth nb nB d blocks j) := rfl

lemma fillNone_get (nb nB : Nat) (d : Nat → ℚ) (blocks : MatQ) (j b i : Nat)
    (hb : b < nB) (hi : i < nb) :
    fillNone nb nB d blocks j (j * nb * nB + b * nb + i) = blocks.entry b i :=
  foldl_setSlice_get nb blocks.entry nB (j * nb * nB) d b i hb hi

lemma fillNone_outside (nb nB : Nat) (d : Nat → ℚ) (blocks : MatQ) (j pos : Nat)
    (hpos : pos < j * nb * nB ∨ j * nb * nB + nB * nb ≤ pos) :
    fillNone nb nB d blocks j pos = d pos :=
  foldl_setSlice_outside nb blocks.entry nB (j * nb * nB) d pos hpos

lemma fillBlocks_get (nb nB : Nat) (d : Nat → Nat → ℚ) (blocks : MatQ) (j b i : Nat)
    (hb : b < nB) (hi : i < nb) :
    fillBlocks nb nB d blocks j b (j * nb + i) = blocks.entry b i :=
  foldl_setRowSlice_get nb (fun x => x) (fun _ => j * nb) blocks.entry
    (fun _ _ h => Or.inl (Nat.ne_of_lt h)) nB d b i hb hi

lemma fillWavelets_get (nb nB : Nat) (d : Nat → Nat → ℚ) (blocks : MatQ) (j b i : Nat)
    (hb : b < nB) (hi : i < nb) :
    fillWavelets nb nB d blocks j j (b * nb + i) = blocks.entry b i :=
  foldl_setRowSlice_get nb (fun _ => j) (fun x => x * nb) blocks.entry
    (fun b b' h => Or.inr (Or.inl (by
      show b * nb + nb ≤ b' * nb
      have hs := Nat.succ_mul b nb
      have hm := Nat.mul_le_mul h (Nat.le_refl nb)
      omega))) nB d b i hb hi

lemma fillBoth_get (nb nB : Nat) (d : Nat → Nat → ℚ) (blocks : MatQ) (j b i : Nat)
    (hb : b < nB) (hi : i < nb) :
    fillBoth nb nB d blocks j (j * nB + b) i = blocks.entry b i := by
  have h := foldl_setRowSlice_get nb (fun x => j * nB + x) (fun _ => 0) blocks.entry
    (fun b b' hlt => Or.inl (by
      show j * nB + b ≠ j * nB + b'
      omega)) nB d b i hb hi
  rwa [Nat.zero_add] at h

/-- C2: for every split mode, the histogram of block `b` for wavelet pass `j`
is written at exactly the specified position: for split None in the flat
range starting at `j*n_bins*n_blocks + b*n_bins` (positions outside the
pass range stay untouched); for split 'blocks' at row `b`, columns from
`j*n_bins`; for split 'wavelets' at row `j`, columns from `b*n_bins`; for
split 'both' at row `j*n_blocks + b`, from column 0. -/
theorem claimC2 (nb nB j b i len r c : Nat) (d1 : Nat → ℚ) (d2 : Nat → Nat → ℚ)
    (blocks : MatQ) (hb : b < nB) (hi : i < nb) :
    (fill none nb nB (FeatArray.one len d1) blocks j).get1 (j * nb * nB + b * nb + i)
      = blocks.entry b i
  ∧ (fill (some splitBlocksStr) nb nB (FeatArray.two r c d2) blocks j).get2 b (j * nb + i)
      = blocks.entry b i
  ∧ (fill (some splitWaveletsStr) nb nB (FeatArray.two r c d2) blocks j).get2 j (b * nb + i)
      = blocks.entry b i
  ∧ (fill (some splitBothStr) nb nB (FeatArray.two r c d2) blocks j).get2 (j * nB + b) i
      = blocks.entry b i
  ∧ ∀ pos, pos < j * nb * nB ∨ j * nb * nB + nB * nb ≤ pos →
      (fill none nb nB (FeatArray.one len d1) blocks j).get1 pos = d1 pos := by
  refine ⟨?_, ?_, ?_, ?_, ?_⟩
  · rw [fill_none_one]
    exact fillNone_get nb nB d1 blocks j b i hb hi
  · rw [fill_blocks_two]
    exact fillBlocks_get nb nB d2 blocks j b i hb hi
  · rw [fill_wavelets_two]
    exact fillWavelets_get nb nB d2 blocks j b i hb hi
  · rw [fill_both_two]
    exact fillBoth_get nb nB d2 blocks j b i hb hi
  · intro pos hpos
    rw [fill_none_one]
    exact fillNone_outside nb nB d1 blocks j pos hpos

/-- C2 witness: the layout law evaluated at nb = 3, nB = 2, j = 1, b = 1,
i = 2 on a concrete 2x3 block matrix. -/
theorem claimC2_witness :
    (fill none 3 2 (FeatArray.one 12 (fun _ => 0)) ⟨2, 3, fun b i => 10 * b + i⟩ 1).get1
        (1 * 3 * 2 + 1 * 3 + 2) = (10 : ℚ) * 1 + 2
  ∧ (fill (some splitBlocksStr) 3 2 (FeatArray.two 2 6 (fun _ _ => 0))
        ⟨2, 3, fun b i => 10 * b + i⟩ 1).get2 1 (1 * 3 + 2) = (10 : ℚ) * 1 + 2
  ∧ (fill (some splitWaveletsStr) 3 2 (FeatArray.two 2 6 (fun _ _ => 0))
        ⟨2, 3, fun b i => 10 * b + i⟩ 1).get2 1 (1 * 3 + 2) = (10 : ℚ) * 1 + 2
  ∧ (fill (some splitBothStr) 3 2 (FeatArray.two 4 3 (fun _ _ => 0))
        ⟨2, 3, fun b i => 10 * b + i⟩ 1).get2 (1 * 2 + 1) 2 = (10 : ℚ) * 1 + 2
  ∧ ∀ pos, pos < 1 * 3 * 2 ∨ 1 * 3 * 2 + 2 * 3 ≤ pos →
      (fill none 3 2 (FeatArray.one 12 (fun _ => 0)) ⟨2, 3, fun b i => 10 * b + i⟩ 1).get1 pos
        = (fun _ => (0 : ℚ)) pos := by
  have h := claimC2 3 2 1 1 2 12 2 6 (fun _ => 0) (fun _ _ => 0)
    ⟨2, 3, fun b i => 10 * b + i⟩ (by decide) (by decide)
  have h4 := claimC2 3 2 1 1 2 12 4 3 (fun _ => 0) (fun _ _ => 0)
    ⟨2, 3, fun b i => 10 * b + i⟩ (by decide) (by decide)
  exact ⟨h.1, h.2.1, h.2.2.1, h4.2.2.2.1, h.2.2.2.2⟩

-- Sparsification lemmas.

lemma nzIdx_sorted (n : Nat) (d : Nat → ℚ) : (nzIdx n d).Pairwise (· < ·) :=
  List.Pairwise.filter _ (List.pairwise_lt_range n)

lemma nzIdx_mem {n : Nat} {d : Nat → ℚ} {i : Nat} : i ∈ nzIdx n d ↔ i < n ∧ d i ≠ 0 := by
  unfold nzIdx
  rw [List.mem_filter, List.mem_range]
  simp

lemma nzIdx_getD {n : Nat} {d : Nat → ℚ} {c : Nat} (h : c < (nzIdx n d).length) :
    (nzIdx n d).getD c 0 = (nzIdx n d).get ⟨c, h⟩ := by
  rw [List.getD_eq_getElem?_getD, List.getElem?_eq_getElem h]
  simp [List.get_eq_getElem]

lemma sparsify_one_eq (n : Nat) (d : Nat → ℚ) :
    sparsifyArr true (FeatArray.one n d)
      = Except.ok (FeatArray.two 2 (nzIdx n d).length
          (fun r c =>
            if r = 0 then (((nzIdx n d).getD c 0 : Nat) : ℚ)
            else if r = 1 then d ((nzIdx n d).getD c 0)
            else 0)) := rfl

lemma sparsify_one_row0 (n : Nat) (d : Nat → ℚ) (c : Nat) :
    exGet2 (sparsifyArr true (FeatArray.one n d)) 0 c = (((nzIdx n d).getD c 0 : Nat) : ℚ) := rfl

lemma sparsify_one_row1 (n : Nat) (d : Nat → ℚ) (c : Nat) :
    exGet2 (sparsifyArr true (FeatArray.one n d)) 1 c = d ((nzIdx n d).getD c 0) := rfl

/-- C5: with sparse configured, sparsifying a 1-D dense array yields a 2-row
array whose row 0 holds, in strictly ascending order, exactly the indices
of the nonzero entries, and whose row 1 holds the corresponding values;
an all-zero array gives shape (2, 0). -/
theorem claimC5 (n : Nat) (d : Nat → ℚ) :
    exShape (sparsifyArr true (FeatArray.one n d)) = some [2, (nzIdx n d).length]
  ∧ (∀ c1 c2, c1 < c2 → c2 < (nzIdx n d).length →
      exGet2 (sparsifyArr true (FeatArray.one n d)) 0 c1
        < exGet2 (sparsifyArr true (FeatArray.one n d)) 0 c2)
  ∧ (∀ c, c < (nzIdx n d).length →
      ∃ i, i < n ∧ d i ≠ 0 ∧ exGet2 (sparsifyArr true (FeatArray.one n d)) 0 c = (i : ℚ)
        ∧ exGet2 (sparsifyArr true (FeatArray.one n d)) 1 c = d i)
  ∧ (∀ i, i < n → d i ≠ 0 →
      ∃ c, c < (nzIdx n d).length
        ∧ exGet2 (sparsifyArr true (FeatArray.one n d)) 0 c = (i : ℚ)
        ∧ exGet2 (sparsifyArr true (FeatArray.one n d)) 1 c = d i)
  ∧ ((∀ i, i < n → d i = 0) → exShape (sparsifyArr true (FeatArray.one n d)) = some [2, 0]) := by
  refine ⟨rfl, ?_, ?_, ?_, ?_⟩
  · intro c1 c2 hlt h2
    have h1 : c1 < (nzIdx n d).length := Nat.lt_trans hlt h2
    rw [sparsify_one_row0, sparsify_one_row0, nzIdx_getD h1, nzIdx_getD h2]
    exact Nat.cast_lt.mpr (List.pairwise_iff_get.mp (nzIdx_sorted n d) ⟨c1, h1⟩ ⟨c2, h2⟩ hlt)
  · intro c hc
    have hmem : (nzIdx n d).get ⟨c, hc⟩ ∈ nzIdx n d := List.get_mem _ c hc
    rcases nzIdx_mem.mp hmem with ⟨hin, hnz⟩
    refine ⟨(nzIdx n d).get ⟨c, hc⟩, hin, hnz, ?_, ?_⟩
    · rw [sparsify_one_row0, nzIdx_getD hc]
    · rw [sparsify_one_row1, nzIdx_getD hc]
  · intro i hin hnz
    rcases List.mem_iff_get.mp (nzIdx_mem.mpr ⟨hin, hnz⟩) with ⟨⟨c, hc⟩, hget⟩
    refine ⟨c, hc, ?_, ?_⟩
    · rw [sparsify_one_row0, nzIdx_getD hc, hget]
    · rw [sparsify_one_row1, nzIdx_getD hc, hget]
  · intro hz
    have hnil : nzIdx n d = [] := by
      unfold nzIdx
      rw [List.filter_eq_nil_iff]
      intro a ha
      simp only [decide_eq_true_eq, ne_eq, not_not]
      exact hz a (List.mem_range.mp ha)
    rw [sparsify_one_eq]
    simp [exShape, FeatArray.shape, hnil]

def dC5 : Nat → ℚ := fun i => if i = 1 then 5 else 0

/-- C5 witness: the sparsify contract applied to the concrete 3-entry dense
array (0, 5, 0). -/
theorem claimC5_witness :
    exShape (sparsifyArr true (FeatArray.one 3 dC5)) = some [2, (nzIdx 3 dC5).length]
  ∧ (∀ c1 c2, c1 < c2 → c2 < (nzIdx 3 dC5).length →
      exGet2 (sparsifyArr true (FeatArray.one 3 dC5)) 0 c1
        < exGet2 (sparsifyArr true (FeatArray.one 3 dC5)) 0 c2)
  ∧ (∀ c, c < (nzIdx 3 dC5).length →
      ∃ i, i < 3 ∧ dC5 i ≠ 0 ∧ exGet2 (sparsifyArr true (FeatArray.one 3 dC5)) 0 c = (i : ℚ)
        ∧ exGet2 (sparsifyArr true (FeatArray.one 3 dC5)) 1 c = dC5 i)
  ∧ (∀ i, i < 3 → dC5 i ≠ 0 →
      ∃ c, c < (nzIdx 3 dC5).length
        ∧ exGet2 (sparsifyArr true (FeatArray.one 3 dC5)) 0 c = (i : ℚ)
        ∧ exGet2 (sparsifyArr true (FeatArray.one 3 dC5)) 1 c = dC5 i)
  ∧ ((∀ i, i < 3 → dC5 i = 0) → exShape (sparsifyArr true (FeatArray.one 3 dC5)) = some [2, 0]) :=
  claimC5 3 dC5

/-- C6: sparsification is the identity when sparse is off, returns an
already 2-row array unchanged, and is idempotent under error-propagating
composition. -/
theorem claimC6 (s : Bool) (x : FeatArray) (c : Nat) (d2 : Nat → Nat → ℚ) :
    sparsifyArr false x = Except.ok x
  ∧ sparsifyArr s (FeatArray.two 2 c d2) = Except.ok (FeatArray.two 2 c d2)
  ∧ (sparsifyArr s x).bind (sparsifyArr s) = sparsifyArr s x := by
  refine ⟨rfl, ?_, ?_⟩
  · cases s
    · rfl
    · rfl
  · cases s
    · rfl
    · cases x with
      | one n d => rfl
      | two r cc dd =>
        by_cases hr : r = 2
        · subst hr
          rfl
        · simp [sparsifyArr, hr, Except.bind]

/-- C7 counterexample: sparse together with the non-None split value
Some "" (the empty string) passes construction, because line 101 tests
Python truthiness of the split value and the empty string is falsy; the
claim states that any non-None split combined with sparse fails. -/
theorem claimC7_counterexample :
    (initLGBPHS argsEmptySplit).isOk = true
  ∧ argsEmptySplit.sparse = true
  ∧ argsEmptySplit.split ≠ none := by
  refine ⟨?_, rfl, ?_⟩
  · rfl
  · simp [argsEmptySplit]

/-- C7 (amended): construction fails when the normalized block overlap
exceeds the block size in either dimension, and when sparse is set
together with a truthy split (non-None and non-empty); when neither
check fires, construction succeeds.  (A non-None but empty-string split
is falsy and is accepted together with sparse.) -/
theorem claimC7_amended (a : InitArgs) :
    ((normPair a.blockSize).1 < (normPair a.blockOverlap).1
        ∨ (normPair a.blockSize).2 < (normPair a.blockOverlap).2 →
      initLGBPHS a = Except.error Err.blockOverlapTooLarge)
  ∧ (¬((normPair a.blockSize).1 < (normPair a.blockOverlap).1
        ∨ (normPair a.blockSize).2 < (normPair a.blockOverlap).2) →
      a.sparse = true → truthySplit a.split = true →
      initLGBPHS a = Except.error Err.sparseSplitConflict)
  ∧ (¬((normPair a.blockSize).1 < (normPair a.blockOverlap).1
        ∨ (normPair a.blockSize).2 < (normPair a.blockOverlap).2) →
      (a.sparse && truthySplit a.split) = false →
      (initLGBPHS a).isOk = true) := by
  refine ⟨?_, ?_, ?_⟩
  · intro h
    simp only [initLGBPHS]
    rw [if_pos h]
  · intro h hs ht
    simp only [initLGBPHS]
    rw [if_neg h, hs, ht]
    rfl
  · intro h hf
    simp only [initLGBPHS]
    rw [if_neg h, hf]
    rfl

/-- C7 witness: the amended construction rules evaluated at the concrete
configurations named in the spec: block size (4,4) with overlap (5,5)
fails, sparse with split 'blocks' fails, and a plain valid setup
succeeds. -/
theorem claimC7_witness :
    initLGBPHS argsOverlapBad = Except.error Err.blockOverlapTooLarge
  ∧ initLGBPHS argsSparseBlocks = Except.error Err.sparseSplitConflict
  ∧ (initLGBPHS argsGood).isOk = true :=
  ⟨(claimC7_amended argsOverlapBad).1 (by decide),
   (claimC7_amended argsSparseBlocks).2.1 (by decide) (by decide) (by decide),
   (claimC7_amended argsGood).2.2 (by decide) (by decide)⟩

/-- C9: a single-integer block_size or block_overlap is normalized to the
square pair (v, v) before the overlap check (construction behaves
identically on the integer v and on the explicit pair (v, v)), and the
default zero overlap is accepted whenever the block size components are
nonnegative and the sparse/split check does not fire. -/
theorem claimC9 (v : Int) (o : IntOrPair) (a : InitArgs) :
    normPair (IntOrPair.int v) = (v, v)
  ∧ initLGBPHS ⟨IntOrPair.int v, o, a.gaborDirections, a.gaborScales,
        a.usePhases, a.sparse, a.split⟩
      = initLGBPHS ⟨IntOrPair.pair v v, o, a.gaborDirections, a.gaborScales,
        a.usePhases, a.sparse, a.split⟩
  ∧ (a.blockOverlap = defaultBlockOverlap → 0 ≤ (normPair a.blockSize).1 →
      0 ≤ (normPair a.blockSize).2 → (a.sparse && truthySplit a.split) = false →
      (initLGBPHS a).isOk = true) := by
  refine ⟨rfl, rfl, ?_⟩
  intro ho h1 h2 hf
  simp only [initLGBPHS, ho]
  have e1 : (normPair defaultBlockOverlap).1 = 0 := rfl
  have e2 : (normPair defaultBlockOverlap).2 = 0 := rfl
  rw [if_neg (by rw [e1, e2]; omega), hf]
  rfl

/-- C9 witness: normalization and the accepted default overlap at the
concrete arguments block_size = 4 (single integer) with the default
overlap 0. -/
theorem claimC9_witness :
    normPair (IntOrPair.int 4) = (4, 4)
  ∧ initLGBPHS ⟨IntOrPair.int 4, defaultBlockOverlap, argsGood.gaborDirections,
        argsGood.gaborScales, argsGood.usePhases, argsGood.sparse, argsGood.split⟩
      = initLGBPHS ⟨IntOrPair.pair 4 4, defaultBlockOverlap, argsGood.gaborDirections,
        argsGood.gaborScales, argsGood.usePhases, argsGood.sparse, argsGood.split⟩
  ∧ (argsGood.blockOverlap = defaultBlockOverlap → 0 ≤ (normPair argsGood.blockSize).1 →
      0 ≤ (normPair argsGood.blockSize).2 →
      (argsGood.sparse && truthySplit argsGood.split) = false →
      (initLGBPHS argsGood).isOk = true) :=
  claimC9 4 defaultBlockOverlap argsGood

-- Characterization of the shape dispatch and the wavelet loop.

lemma shapeOf_ok (s : Option String) (hs : splitOk s) (nB nb jl : Nat) :
    shapeOf s nB nb jl = Except.ok (denseShape s nB nb jl) := by
  rcases hs with h | h | h | h <;> (subst h; rfl)

lemma shapeOf_bad (s : Option String) (hs : ¬ splitOk s) (nB nb jl : Nat) :
    shapeOf s nB nb jl = Except.error Err.invalidSplit := by
  unfold splitOk at hs
  push_neg at hs
  unfold shapeOf
  rw [if_neg hs.1, if_neg hs.2.1, if_neg hs.2.2.1, if_neg hs.2.2.2]

lemma shapeOf_error (s : Option String) (nB nb jl : Nat) (e : Err)
    (h : shapeOf s nB nb jl = Except.error e) : e = Err.invalidSplit := by
  unfold shapeOf at h
  split_ifs at h
  cases h
  rfl

lemma loopBody_ok (cfg : Config) (p : Prims) (img : NpImage) (jetLen w0 : Nat)
    (st : LGBPHSState) (arr : Option FeatArray) (j : Nat) (hs : splitOk cfg.split) :
    loopBody cfg p img jetLen w0 st arr j =
      (⟨st.trafoImage, some (absBlocksOf cfg p img j).cols,
          some (absBlocksOf cfg p img j).rows⟩,
       Except.ok (some (arrStep cfg p img jetLen w0 arr j))) := by
  simp only [loopBody, arrStep, passFill, shapeOf_ok cfg.split hs]

lemma loopBody_bad (cfg : Config) (p : Prims) (img : NpImage) (jetLen w0 : Nat)
    (st : LGBPHSState) (arr : Option FeatArray) (j : Nat) (hs : ¬ splitOk cfg.split) :
    loopBody cfg p img jetLen w0 st arr j =
      (⟨st.trafoImage, some (absBlocksOf cfg p img j).cols,
          some (absBlocksOf cfg p img j).rows⟩,
       Except.error Err.invalidSplit) := by
  simp only [loopBody, shapeOf_bad cfg.split hs]

lemma loopGo_ok (cfg : Config) (p : Prims) (img : NpImage) (jetLen w0 : Nat)
    (hs : splitOk cfg.split) :
    ∀ (L : List Nat) (st : LGBPHSState) (arr : Option FeatArray),
      loopGo cfg p img jetLen w0 L st arr =
        (L.foldl (fun s j => (⟨s.trafoImage, some (absBlocksOf cfg p img j).cols,
            some (absBlocksOf cfg p img j).rows⟩ : LGBPHSState)) st,
         Except.ok (L.foldl (fun a j => some (arrStep cfg p img jetLen w0 a j)) arr)) := by
  intro L
  induction L with
  | nil => intro st arr; rfl
  | cons j rest ih =>
    intro st arr
    rw [loopGo, loopBody_ok cfg p img jetLen w0 st arr j hs]
    simp only []
    rw [ih, List.foldl_cons, List.foldl_cons]

lemma loopGo_error_split (cfg : Config) (p : Prims) (img : NpImage) (jetLen w0 : Nat) :
    ∀ (L : List Nat) (st : LGBPHSState) (arr : Option FeatArray) (st2 : LGBPHSState) (e : Err),
      loopGo cfg p img jetLen w0 L st arr = (st2, Except.error e) → e = Err.invalidSplit := by
  intro L
  induction L with
  | nil =>
    intro st arr st2 e h
    rw [loopGo] at h
    simp at h
  | cons j rest ih =>
    intro st arr st2 e h
    by_cases hs : splitOk cfg.split
    · rw [loopGo, loopBody_ok cfg p img jetLen w0 st arr j hs] at h
      simp only [] at h
      exact ih _ _ _ _ h
    · rw [loopGo, loopBody_bad cfg p img jetLen w0 st arr j hs] at h
      simp only [] at h
      have h2 := congrArg Prod.snd h
      simp only [] at h2
      injection h2 with h3
      exact h3.symm

lemma sparsifyArr_error (s : Bool) (a : FeatArray) (e : Err)
    (h : sparsifyArr s a = Except.error e) : e = Err.sparsifyAssert := by
  unfold sparsifyArr at h
  cases s
  · simp at h
  · cases a with
    | one n d => simp at h
    | two r c d =>
      rw [if_pos rfl] at h
      simp only [] at h
      split_ifs at h with hr
      injection h with h1
      exact h1.symm

-- Shape preservation through the fill passes.

lemma fill_shape (split : Option String) (nb nB : Nat) (a : FeatArray) (blocks : MatQ)
    (j : Nat) : (fill split nb nB a blocks j).shape = a.shape := by
  unfold fill
  split_ifs <;> cases a <;> rfl

lemma passFill_shape (cfg : Config) (p : Prims) (img : NpImage) (w0 : Nat) (a : FeatArray)
    (j : Nat) : (passFill cfg p img w0 a j).shape = a.shape := by
  simp only [passFill]
  cases cfg.usePhases
  · simp only [Bool.false_eq_true, if_false, fill_shape]
  · simp only [if_true, fill_shape]

lemma foldl_passFill_shape (cfg : Config) (p : Prims) (img : NpImage) (w0 : Nat) :
    ∀ (L : List Nat) (a : FeatArray),
      (L.foldl (passFill cfg p img w0) a).shape = a.shape := by
  intro L
  induction L with
  | nil => intro a; rfl
  | cons j rest ih =>
    intro a
    rw [List.foldl_cons, ih, passFill_shape]

lemma allocArr_denseShape (p : Prims) (s : Option String) (nB nb jl : Nat) :
    (allocArr p (denseShape s nB nb jl)).shape = denseShape s nB nb jl := by
  unfold denseShape
  split_ifs <;> rfl

-- The final array of a successful call: allocation at pass 0 followed by
-- the pure fill passes over all wavelet indices.

lemma foldl_optStep_some (cfg : Config) (p : Prims) (img : NpImage) (jetLen w0 : Nat) :
    ∀ (L : List Nat) (a : FeatArray),
      L.foldl (fun a j => some (arrStep cfg p img jetLen w0 a j)) (some a)
        = some (L.foldl (passFill cfg p img w0) a) := by
  intro L
  induction L with
  | nil => intro a; rfl
  | cons j rest ih =>
    intro a
    rw [List.foldl_cons, List.foldl_cons]
    exact ih (passFill cfg p img w0 a j)

lemma call_arr_final (cfg : Config) (p : Prims) (img : NpImage) (jetLen w0 n : Nat)
    (hW : w0 = n + 1) :
    (List.range w0).foldl (fun a j => some (arrStep cfg p img jetLen w0 a j)) none
      = some ((List.range w0).foldl (passFill cfg p img w0)
          (allocArr p (denseShape cfg.split (absBlocksOf cfg p img 0).rows
            (absBlocksOf cfg p img 0).cols jetLen))) := by
  subst hW
  rw [List.range_succ_eq_map, List.foldl_cons, List.foldl_cons]
  exact foldl_optStep_some cfg p img jetLen (n + 1) (List.map Nat.succ (List.range n)) _

-- Result and state of a successful call.

lemma call_result_ok (cfg : Config) (p : Prims) (st : LGBPHSState) (img : NpImage)
    (hs : splitOk cfg.split) (hin : inputCheck img = true) :
    (call cfg p st img).1 =
      match (List.range (numberOfWavelets cfg)).foldl
          (fun a j => some (arrStep cfg p img (jetLength cfg) (numberOfWavelets cfg) a j))
          none with
      | none => if cfg.sparse then Except.error Err.noneAttribute else Except.ok none
      | some a => (sparsifyArr cfg.sparse a).map some := by
  unfold call
  rw [hin]
  simp only [if_true]
  rw [loopGo_ok cfg p img (jetLength cfg) (numberOfWavelets cfg) hs]
  cases hA : (List.range (numberOfWavelets cfg)).foldl
      (fun a j => some (arrStep cfg p img (jetLength cfg) (numberOfWavelets cfg) a j)) none with
  | none => rfl
  | some a => rfl

lemma call_state_fields (cfg : Config) (p : Prims) (st : LGBPHSState) (img : NpImage)
    (hs : splitOk cfg.split) (hin : inputCheck img = true) (n : Nat)
    (hW : numberOfWavelets cfg = n + 1) :
    (call cfg p st img).2.trafoImage
        = some ⟨(reallocTrafo (numberOfWavelets cfg) (img.shape.getD 0 0)
            (img.shape.getD 1 0) st.trafoImage).dims, fun j => p.gwt img j⟩
    ∧ (call cfg p st img).2.nBins = some (absBlocksOf cfg p img n).cols
    ∧ (call cfg p st img).2.nBlocks = some (absBlocksOf cfg p img n).rows := by
  have hstate : ∀ (L : List Nat) (s : LGBPHSState),
      (L.foldl (fun s j => (⟨s.trafoImage, some (absBlocksOf cfg p img j).cols,
          some (absBlocksOf cfg p img j).rows⟩ : LGBPHSState)) s).trafoImage
        = s.trafoImage := by
    intro L
    induction L with
    | nil => intro s; rfl
    | cons j rest ih => intro s; rw [List.foldl_cons]; exact ih _
  unfold call
  rw [hin]
  simp only [if_true]
  rw [loopGo_ok cfg p img (jetLength cfg) (numberOfWavelets cfg) hs]
  cases hA : (List.range (numberOfWavelets cfg)).foldl
      (fun a j => some (arrStep cfg p img (jetLength cfg) (numberOfWavelets cfg) a j)) none with
  | none =>
    refine ⟨?_, ?_, ?_⟩
    · simp only []
      rw [hstate]
    · simp only []
      rw [hW, List.range_succ, List.foldl_append, List.foldl_cons, List.foldl_nil]
    · simp only []
      rw [hW, List.range_succ, List.foldl_append, List.foldl_cons, List.foldl_nil]
  | some a =>
    refine ⟨?_, ?_, ?_⟩
    · simp only []
      rw [hstate]
    · simp only []
      rw [hW, List.range_succ, List.foldl_append, List.foldl_cons, List.foldl_nil]
    · simp only []
      rw [hW, List.range_succ, List.foldl_append, List.foldl_cons, List.foldl_nil]

-- A call that trips over an unrecognized split value: the error is raised
-- in the first loop iteration, after the transform has been written and
-- the n_bins / n_blocks attributes set.

lemma call_invalidSplit (cfg : Config) (p : Prims) (st : LGBPHSState) (img : NpImage)
    (hbad : ¬ splitOk cfg.split) (hin : inputCheck img = true) (n : Nat)
    (hW : numberOfWavelets cfg = n + 1) :
    (call cfg p st img).1 = Except.error Err.invalidSplit
  ∧ (call cfg p st img).2.trafoImage
      = some ⟨(reallocTrafo (numberOfWavelets cfg) (img.shape.getD 0 0)
          (img.shape.getD 1 0) st.trafoImage).dims, fun j => p.gwt img j⟩
  ∧ (call cfg p st img).2.nBins = some (absBlocksOf cfg p img 0).cols
  ∧ (call cfg p st img).2.nBlocks = some (absBlocksOf cfg p img 0).rows := by
  unfold call
  rw [hin]
  simp only [if_true]
  rw [hW, List.range_succ_eq_map, loopGo,
    loopBody_bad cfg p img (jetLength cfg) (n + 1) _ none 0 hbad]
  exact ⟨rfl, rfl, rfl, rfl⟩

lemma sparsifyArr_false (a : FeatArray) : sparsifyArr false a = Except.ok a := rfl

lemma call_shape_dense (cfg : Config) (p : Prims) (st : LGBPHSState) (img : NpImage) (n : Nat)
    (hs : splitOk cfg.split) (hin : inputCheck img = true)
    (hW : numberOfWavelets cfg = n + 1) (hsp : cfg.sparse = false) :
    resultShape (call cfg p st img).1
      = some (denseShape cfg.split (absBlocksOf cfg p img 0).rows
          (absBlocksOf cfg p img 0).cols (jetLength cfg)) := by
  have hres := call_result_ok cfg p st img hs hin
  rw [call_arr_final cfg p img (jetLength cfg) (numberOfWavelets cfg) n hW] at hres
  rw [hres, hsp]
  simp only [sparsifyArr_false, Except.map, resultShape]
  rw [foldl_passFill_shape, allocArr_denseShape]

/-- C3 counterexample: with sparse configured (and split None), the returned
array has the 2-row sparse shape, not the 1-D dense shape demanded by the
layout formula: here n_blocks = n_bins = jet_length = 1, so the formula
demands shape [1], but the call returns shape [2, 0]. -/
theorem claimC3_counterexample :
    resultShape (call cfgSparse primsZero st0 imgStd).1 = some [2, 0]
  ∧ (absBlocksOf cfgSparse primsZero imgStd 0).rows = 1
  ∧ (absBlocksOf cfgSparse primsZero imgStd 0).cols = 1
  ∧ jetLength cfgSparse = 1
  ∧ some [2, 0] ≠ some [1 * 1 * 1] := by
  refine ⟨?_, rfl, rfl, rfl, by decide⟩
  rfl

/-- C3 (amended): for non-sparse configurations, the output array shape
matches the layout formulas computed from the pass-0 block counts (split
None gives [n_blocks*n_bins*jet_length], 'blocks' gives
[n_blocks, n_bins*jet_length], 'wavelets' gives
[jet_length, n_bins*n_blocks], 'both' gives
[jet_length*n_blocks, n_bins]); any other split value fails the call
with the invalid-split error.  With sparse configured the returned array
instead has the 2-row sparse shape. -/
theorem claimC3_amended (cfg : Config) (p : Prims) (st : LGBPHSState) (img : NpImage) (n : Nat)
    (hin : inputCheck img = true) (hW : numberOfWavelets cfg = n + 1)
    (hsp : cfg.sparse = false) :
    (cfg.split = none → resultShape (call cfg p st img).1
        = some [(absBlocksOf cfg p img 0).rows * (absBlocksOf cfg p img 0).cols
            * jetLength cfg])
  ∧ (cfg.split = some splitBlocksStr → resultShape (call cfg p st img).1
        = some [(absBlocksOf cfg p img 0).rows,
            (absBlocksOf cfg p img 0).cols * jetLength cfg])
  ∧ (cfg.split = some splitWaveletsStr → resultShape (call cfg p st img).1
        = some [jetLength cfg,
            (absBlocksOf cfg p img 0).cols * (absBlocksOf cfg p img 0).rows])
  ∧ (cfg.split = some splitBothStr → resultShape (call cfg p st img).1
        = some [jetLength cfg * (absBlocksOf cfg p img 0).rows,
            (absBlocksOf cfg p img 0).cols])
  ∧ (¬ splitOk cfg.split → (call cfg p st img).1 = Except.error Err.invalidSplit) := by
  refine ⟨?_, ?_, ?_, ?_, ?_⟩
  · intro hspl
    rw [call_shape_dense cfg p st img n (Or.inl hspl) hin hW hsp, hspl]
    rfl
  · intro hspl
    rw [call_shape_dense cfg p st img n (Or.inr (Or.inl hspl)) hin hW hsp, hspl]
    rfl
  · intro hspl
    rw [call_shape_dense cfg p st img n (Or.inr (Or.inr (Or.inl hspl))) hin hW hsp, hspl]
    rfl
  · intro hspl
    rw [call_shape_dense cfg p st img n (Or.inr (Or.inr (Or.inr hspl))) hin hW hsp, hspl]
    rfl
  · intro hbad
    exact (call_invalidSplit cfg p st img hbad hin n hW).1

/-- C3 witness: the shape law applied to the concrete split='blocks'
configuration with 1x1 blocks (result shape [1, 1]) and to an
unrecognized split value (invalid-split error). -/
theorem claimC3_witness :
    (cfgBlocks.split = none → resultShape (call cfgBlocks primsZero st0 imgStd).1
        = some [(absBlocksOf cfgBlocks primsZero imgStd 0).rows
            * (absBlocksOf cfgBlocks primsZero imgStd 0).cols * jetLength cfgBlocks])
  ∧ (cfgBlocks.split = some splitBlocksStr →
      resultShape (call cfgBlocks primsZero st0 imgStd).1
        = some [(absBlocksOf cfgBlocks primsZero imgStd 0).rows,
            (absBlocksOf cfgBlocks primsZero imgStd 0).cols * jetLength cfgBlocks])
  ∧ (cfgBlocks.split = some splitWaveletsStr →
      resultShape (call cfgBlocks primsZero st0 imgStd).1
        = some [jetLength cfgBlocks, (absBlocksOf cfgBlocks primsZero imgStd 0).cols
            * (absBlocksOf cfgBlocks primsZero imgStd 0).rows])
  ∧ (cfgBlocks.split = some splitBothStr →
      resultShape (call cfgBlocks primsZero st0 imgStd).1
        = some [jetLength cfgBlocks * (absBlocksOf cfgBlocks primsZero imgStd 0).rows,
            (absBlocksOf cfgBlocks primsZero imgStd 0).cols])
  ∧ (¬ splitOk cfgBlocks.split →
      (call cfgBlocks primsZero st0 imgStd).1 = Except.error Err.invalidSplit) :=
  claimC3_amended cfgBlocks primsZero st0 imgStd 0 (by decide) rfl rfl

/-- C10: when the call raises on an unrecognized split value, the instance
state has already been mutated: the trafo buffer holds the new transform
(with the image's spatial shape), and n_bins / n_blocks have been set
from the pass-0 block histograms; the error withholds the output but does
not restore the prior state. -/
theorem claimC10 (cfg : Config) (p : Prims) (st : LGBPHSState) (img : NpImage) (s : String)
    (n : Nat) (hsplit : cfg.split = some s)
    (hbad : s ≠ splitBlocksStr ∧ s ≠ splitWaveletsStr ∧ s ≠ splitBothStr)
    (hin : inputCheck img = true) (hW : numberOfWavelets cfg = n + 1) :
    (call cfg p st img).1 = Except.error Err.invalidSplit
  ∧ (call cfg p st img).2.trafoImage
      = some ⟨(reallocTrafo (numberOfWavelets cfg) (img.shape.getD 0 0)
          (img.shape.getD 1 0) st.trafoImage).dims, fun j => p.gwt img j⟩
  ∧ (call cfg p st img).2.nBins = some (absBlocksOf cfg p img 0).cols
  ∧ (call cfg p st img).2.nBlocks = some (absBlocksOf cfg p img 0).rows := by
  have hno : ¬ splitOk cfg.split := by
    rw [hsplit]
    rintro (h | h | h | h)
    · cases h
    · exact hbad.1 (Option.some.inj h)
    · exact hbad.2.1 (Option.some.inj h)
    · exact hbad.2.2 (Option.some.inj h)
  exact call_invalidSplit cfg p st img hno hin n hW

/-- C10 witness: the state mutation under the failing call evaluated at the
concrete unrecognized split value 'garbage' on a fresh instance state. -/
theorem claimC10_witness :
    (call cfgBadSplit primsZero st0 imgStd).1 = Except.error Err.invalidSplit
  ∧ (call cfgBadSplit primsZero st0 imgStd).2.trafoImage
      = some ⟨(reallocTrafo (numberOfWavelets cfgBadSplit) (imgStd.shape.getD 0 0)
          (imgStd.shape.getD 1 0) st0.trafoImage).dims, fun j => primsZero.gwt imgStd j⟩
  ∧ (call cfgBadSplit primsZero st0 imgStd).2.nBins
      = some (absBlocksOf cfgBadSplit primsZero imgStd 0).cols
  ∧ (call cfgBadSplit primsZero st0 imgStd).2.nBlocks
      = some (absBlocksOf cfgBadSplit primsZero imgStd 0).rows :=
  claimC10 cfgBadSplit primsZero st0 imgStd garbageStr 0 rfl
    (by refine ⟨?_, ?_, ?_⟩ <;> decide) (by decide) rfl

lemma shape_one (a : FeatArray) (x : Nat) (h : a.shape = [x]) :
    ∃ d, a = FeatArray.one x d := by
  cases a with
  | one n d =>
    refine ⟨d, ?_⟩
    injection h with h1 _
    rw [h1]
  | two r c d => simp [FeatArray.shape] at h

/-- C1 counterexample: the extractor performs no cross-plane consistency
check.  With primitives whose block count differs between wavelet plane 0
(2 blocks of 2 bins) and plane 1 (1 block of 2 bins), the call raises no
error at all and returns an array in which pass 1 has overwritten part of
the region the layout assigns to pass 0: flat position 2 belongs to
block 1 of pass 0 (value 10) but holds the pass-1 value 100. -/
theorem claimC1_counterexample :
    (absBlocksOf cfgVar primsVar imgStd 0).rows ≠ (absBlocksOf cfgVar primsVar imgStd 1).rows
  ∧ (call cfgVar primsVar st0 imgStd).1.isOk = true
  ∧ resultAt (call cfgVar primsVar st0 imgStd).1 2 = ((100 : Nat) : ℚ)
  ∧ (absBlocksOf cfgVar primsVar imgStd 0).entry 1 0 = ((10 : Nat) : ℚ)
  ∧ ((100 : Nat) : ℚ) ≠ ((10 : Nat) : ℚ) := by
  refine ⟨by decide, by decide, by decide, by decide, by decide⟩

/-- C1 (amended): the extractor does not check that n_bins and n_blocks
agree across wavelet planes and never raises a consistency error.  First,
every loop iteration unconditionally overwrites the n_bins / n_blocks
attributes from the current pass's magnitude blocks, whatever the
previous state held and whether or not the iteration then raises.
Second, for split None without phases, whenever every pass's flat write
range fits inside the array allocated from the pass-0 counts (the regime
in which the slice assignments of lines 108-111 perform no clipping, so
the embedding coincides with numpy; disagreeing counts are allowed), the
call raises nothing and returns, with the attributes ending at the
last pass's values.  Writes that would fall outside the allocated array
surface in numpy as generic broadcast errors from the slice assignment,
not as any consistency check, and are not covered by this statement. -/
theorem claimC1_amended (cfg : Config) (p : Prims) (st : LGBPHSState) (img : NpImage)
    (st' : LGBPHSState) (arr : Option FeatArray) (jetLen w0 j n : Nat) :
    ((loopBody cfg p img jetLen w0 st' arr j).1.nBins
        = some (absBlocksOf cfg p img j).cols
      ∧ (loopBody cfg p img jetLen w0 st' arr j).1.nBlocks
        = some (absBlocksOf cfg p img j).rows)
  ∧ (cfg.split = none → cfg.usePhases = false → inputCheck img = true →
      numberOfWavelets cfg = n + 1 →
      (∀ y, y < numberOfWavelets cfg →
        y * (absBlocksOf cfg p img y).cols * (absBlocksOf cfg p img y).rows
            + (absBlocksOf cfg p img y).rows * (absBlocksOf cfg p img y).cols
          ≤ (absBlocksOf cfg p img 0).rows * (absBlocksOf cfg p img 0).cols
              * jetLength cfg) →
      (call cfg p st img).1.isOk = true
      ∧ (call cfg p st img).2.nBins = some (absBlocksOf cfg p img n).cols
      ∧ (call cfg p st img).2.nBlocks = some (absBlocksOf cfg p img n).rows) := by
  constructor
  · simp only [loopBody]
    cases hsh : shapeOf cfg.split (absBlocksOf cfg p img j).rows
        (absBlocksOf cfg p img j).cols jetLen with
    | error e => exact ⟨rfl, rfl⟩
    | ok shp => exact ⟨rfl, rfl⟩
  · intro hspl hph hin hW hbounds
    have hs : splitOk cfg.split := Or.inl hspl
    have hstf := call_state_fields cfg p st img hs hin n hW
    refine ⟨?_, hstf.2.1, hstf.2.2⟩
    have hres := call_result_ok cfg p st img hs hin
    rw [call_arr_final cfg p img (jetLength cfg) (numberOfWavelets cfg) n hW] at hres
    rw [hres]
    simp only []
    have hsh : ((List.range (numberOfWavelets cfg)).foldl
        (passFill cfg p img (numberOfWavelets cfg))
        (allocArr p (denseShape cfg.split (absBlocksOf cfg p img 0).rows
          (absBlocksOf cfg p img 0).cols (jetLength cfg)))).shape
        = [(absBlocksOf cfg p img 0).rows * (absBlocksOf cfg p img 0).cols
            * jetLength cfg] := by
      rw [foldl_passFill_shape, allocArr_denseShape, hspl]
      rfl
    rcases shape_one _ _ hsh with ⟨d, hd⟩
    rw [hd]
    cases hsp : cfg.sparse
    · rw [sparsifyArr_false]
      rfl
    · rw [sparsify_one_eq]
      rfl

/-- C1 witness: the amended statement applied to the concrete primitives
whose block counts disagree between the two wavelet planes (2 blocks for
plane 0, 1 block for plane 1; every write range within the length-8
allocated array, checked by decide): the overwrite law at pass 1, and
the call succeeding with the attributes ending at the pass-1 values. -/
theorem claimC1_witness :
    ((loopBody cfgVar primsVar imgStd (jetLength cfgVar) (numberOfWavelets cfgVar)
          st0 none 1).1.nBins = some (absBlocksOf cfgVar primsVar imgStd 1).cols
      ∧ (loopBody cfgVar primsVar imgStd (jetLength cfgVar) (numberOfWavelets cfgVar)
          st0 none 1).1.nBlocks = some (absBlocksOf cfgVar primsVar imgStd 1).rows)
  ∧ ((call cfgVar primsVar st0 imgStd).1.isOk = true
      ∧ (call cfgVar primsVar st0 imgStd).2.nBins
          = some (absBlocksOf cfgVar primsVar imgStd 1).cols
      ∧ (call cfgVar primsVar st0 imgStd).2.nBlocks
          = some (absBlocksOf cfgVar primsVar imgStd 1).rows) :=
  ⟨(claimC1_amended cfgVar primsVar st0 imgStd st0 none (jetLength cfgVar)
      (numberOfWavelets cfgVar) 1 1).1,
   (claimC1_amended cfgVar primsVar st0 imgStd st0 none (jetLength cfgVar)
      (numberOfWavelets cfgVar) 1 1).2 rfl rfl (by decide) rfl (by decide)⟩

/-- C8 counterexample: an empty 2-D float64 image (shape (0, 0)) passes the
input validation and the call completes without raising; the extractor
never checks emptiness, contradicting the claim that empty inputs fail
with the input error. -/
theorem claimC8_counterexample :
    inputCheck imgEmpty = true
  ∧ imgEmpty.shape = [0, 0]
  ∧ (call cfgPlain primsZero st0 imgEmpty).1.isOk = true := by
  refine ⟨by decide, rfl, by decide⟩

/-- C8 (amended): an input that is not 2-D or not float64 fails the input
check and the call returns the input error with the state untouched and
no output; an input passing the check (empty images included) never
produces the input error. -/
theorem claimC8_amended (cfg : Config) (p : Prims) (st : LGBPHSState) (img : NpImage) :
    (inputCheck img = false → call cfg p st img = (Except.error Err.invalidInput, st))
  ∧ (inputCheck img = true → (call cfg p st img).1 ≠ Except.error Err.invalidInput) := by
  constructor
  · intro hin
    unfold call
    rw [hin]
    rfl
  · intro hin hcon
    unfold call at hcon
    rw [hin] at hcon
    simp only [if_true] at hcon
    rcases hgo : loopGo cfg p img (jetLength cfg) (numberOfWavelets cfg)
        (List.range (numberOfWavelets cfg))
        ⟨some ⟨(reallocTrafo (numberOfWavelets cfg) (img.shape.getD 0 0)
            (img.shape.getD 1 0) st.trafoImage).dims, fun j => p.gwt img j⟩,
          st.nBins, st.nBlocks⟩ none with ⟨st2, r⟩
    rw [hgo] at hcon
    cases r with
    | error e =>
      simp only [] at hcon
      have he := loopGo_error_split cfg p img (jetLength cfg) (numberOfWavelets cfg)
        (List.range (numberOfWavelets cfg)) _ none st2 e hgo
      injection hcon with h1
      rw [he] at h1
      cases h1
    | ok oarr =>
      cases oarr with
      | none =>
        simp only [] at hcon
        cases hspc : cfg.sparse
        · rw [hspc] at hcon
          simp at hcon
        · rw [hspc] at hcon
          simp only [if_true] at hcon
          injection hcon with h1
          cases h1
      | some a =>
        simp only [] at hcon
        cases hsp : sparsifyArr cfg.sparse a with
        | error e' =>
          rw [hsp] at hcon
          simp only [Except.map] at hcon
          have he := sparsifyArr_error cfg.sparse a e' hsp
          injection hcon with h1
          rw [he] at h1
          cases h1
        | ok a' =>
          rw [hsp] at hcon
          simp only [Except.map] at hcon
          exact Except.noConfusion hcon

/-- C8 witness: the amended input contract applied to a wrong-dtype image,
a 3-D image (both rejected with the state returned untouched), and the
valid standard image (never the input error). -/
theorem claimC8_witness :
    call cfgPlain primsZero st0 imgInt = (Except.error Err.invalidInput, st0)
  ∧ call cfgPlain primsZero st0 img3d = (Except.error Err.invalidInput, st0)
  ∧ (call cfgPlain primsZero st0 imgStd).1 ≠ Except.error Err.invalidInput :=
  ⟨(claimC8_amended cfgPlain primsZero st0 imgInt).1 (by decide),
   (claimC8_amended cfgPlain primsZero st0 img3d).1 (by decide),
   (claimC8_amended cfgPlain primsZero st0 imgStd).2 (by decide)⟩

-- Flat-layout characterization of the passes for split = None.

lemma passFill_one (cfg : Config) (p : Prims) (img : NpImage) (w0 len : Nat) (d : Nat → ℚ)
    (j : Nat) (hs : cfg.split = none) :
    passFill cfg p img w0 (FeatArray.one len d) j
      = FeatArray.one len (flatStep cfg p img w0 d j) := by
  simp only [passFill, flatStep, hs]
  cases hu : cfg.usePhases
  · rw [if_neg Bool.false_ne_true, if_neg Bool.false_ne_true, fill_none_one]
  · rw [if_pos rfl, if_pos rfl, fill_none_one, fill_none_one]

lemma foldl_passFill_one (cfg : Config) (p : Prims) (img : NpImage) (w0 : Nat)
    (hs : cfg.split = none) :
    ∀ (L : List Nat) (len : Nat) (d : Nat → ℚ),
      L.foldl (passFill cfg p img w0) (FeatArray.one len d)
        = FeatArray.one len (L.foldl (flatStep cfg p img w0) d) := by
  intro L
  induction L with
  | nil => intro len d; rfl
  | cons j rest ih =>
    intro len d
    rw [List.foldl_cons, List.foldl_cons, passFill_one cfg p img w0 len d j hs, ih]

-- Disjointness of the flat tiles of distinct pass indices.

lemma tile_disjoint (nb nB q p b i : Nat) (hb : b < nB) (hi : i < nb) (hne : p ≠ q) :
    q * nb * nB + b * nb + i < p * nb * nB
  ∨ p * nb * nB + nB * nb ≤ q * nb * nB + b * nb + i := by
  have e0 : (b + 1) * nb = b * nb + nb := by ring
  have hm0 : (b + 1) * nb ≤ nB * nb := Nat.mul_le_mul hb (Nat.le_refl nb)
  have e3 : nB * nb = nb * nB := by ring
  rcases Nat.lt_or_ge p q with h | h
  · right
    have e1 : p * nb * nB + nb * nB = (p + 1) * (nb * nB) := by ring
    have e2 : q * nb * nB = q * (nb * nB) := by ring
    have hm : (p + 1) * (nb * nB) ≤ q * (nb * nB) :=
      Nat.mul_le_mul (by omega) (Nat.le_refl (nb * nB))
    omega
  · have hqp : q < p := Nat.lt_of_le_of_ne h (Ne.symm hne)
    left
    have e1 : q * nb * nB + nb * nB = (q + 1) * (nb * nB) := by ring
    have e2 : p * nb * nB = p * (nb * nB) := by ring
    have hm : (q + 1) * (nb * nB) ≤ p * (nb * nB) :=
      Nat.mul_le_mul (by omega) (Nat.le_refl (nb * nB))
    omega

lemma foldl_flatStep_outside (cfg : Config) (p : Prims) (img : NpImage) (w0 nb nB : Nat) :
    ∀ (L : List Nat) (d : Nat → ℚ) (pos : Nat),
      (∀ y ∈ L, (absBlocksOf cfg p img y).cols = nb ∧ (absBlocksOf cfg p img y).rows = nB) →
      (∀ y ∈ L, (pos < y * nb * nB ∨ y * nb * nB + nB * nb ≤ pos)
        ∧ (pos < (y + w0) * nb * nB ∨ (y + w0) * nb * nB + nB * nb ≤ pos)) →
      (L.foldl (flatStep cfg p img w0) d) pos = d pos := by
  intro L
  induction L with
  | nil => intro d pos _ _; rfl
  | cons y rest ih =>
    intro d pos hdim hout
    rw [List.foldl_cons]
    rw [ih (flatStep cfg p img w0 d y) pos
      (fun z hz => hdim z (List.mem_cons_of_mem y hz))
      (fun z hz => hout z (List.mem_cons_of_mem y hz))]
    have hd := hdim y (List.mem_cons_self y rest)
    have ho := hout y (List.mem_cons_self y rest)
    simp only [flatStep, hd.1, hd.2]
    cases hu : cfg.usePhases
    · rw [if_neg Bool.false_ne_true]
      exact fillNone_outside nb nB d _ y pos ho.1
    · rw [if_pos rfl]
      rw [fillNone_outside nb nB _ _ (y + w0) pos ho.2]
      exact fillNone_outside nb nB d _ y pos ho.1

lemma foldl_flatStep_at (cfg : Config) (p : Prims) (img : NpImage) (w0 nb nB j b i : Nat)
    (hph : cfg.usePhases = true) (hjW : j < w0) (hb : b < nB) (hi : i < nb) :
    ∀ (L : List Nat) (d : Nat → ℚ), L.Nodup → (∀ y ∈ L, y < w0) →
      (∀ y ∈ L, (absBlocksOf cfg p img y).cols = nb ∧ (absBlocksOf cfg p img y).rows = nB) →
      j ∈ L →
      (L.foldl (flatStep cfg p img w0) d) (j * nb * nB + b * nb + i)
          = (absBlocksOf cfg p img j).entry b i
      ∧ (L.foldl (flatStep cfg p img w0) d) ((j + w0) * nb * nB + b * nb + i)
          = (phaseBlocksOf cfg p img j).entry b i := by
  intro L
  induction L with
  | nil => intro d _ _ _ hj; exact absurd hj (List.not_mem_nil j)
  | cons x rest ih =>
    intro d hnd hlt hdim hj
    rw [List.foldl_cons]
    rcases List.mem_cons.mp hj with hjx | hjr
    · subst hjx
      have hnotin : j ∉ rest := (List.nodup_cons.mp hnd).1
      have hd := hdim j (List.mem_cons_self j rest)
      have hpres : ∀ pos : Nat,
          (∀ y ∈ rest, (pos < y * nb * nB ∨ y * nb * nB + nB * nb ≤ pos)
            ∧ (pos < (y + w0) * nb * nB ∨ (y + w0) * nb * nB + nB * nb ≤ pos)) →
          (rest.foldl (flatStep cfg p img w0) (flatStep cfg p img w0 d j)) pos
            = flatStep cfg p img w0 d j pos :=
        fun pos hcond => foldl_flatStep_outside cfg p img w0 nb nB rest _ pos
          (fun z hz => hdim z (List.mem_cons_of_mem j hz)) hcond
      constructor
      · rw [hpres _ ?hc1]
        case hc1 =>
          intro y hy
          have hyW := hlt y (List.mem_cons_of_mem j hy)
          have hyj : y ≠ j := fun h => hnotin (h ▸ hy)
          exact ⟨tile_disjoint nb nB j y b i hb hi hyj,
            tile_disjoint nb nB j (y + w0) b i hb hi (by omega)⟩
        simp only [flatStep, hd.1, hd.2, hph]
        rw [if_pos trivial]
        rw [fillNone_outside nb nB _ _ (j + w0) _
          (tile_disjoint nb nB j (j + w0) b i hb hi (by omega))]
        exact fillNone_get nb nB d _ j b i hb hi
      · rw [hpres _ ?hc2]
        case hc2 =>
          intro y hy
          have hyW := hlt y (List.mem_cons_of_mem j hy)
          have hyj : y ≠ j := fun h => hnotin (h ▸ hy)
          exact ⟨tile_disjoint nb nB (j + w0) y b i hb hi (by omega),
            tile_disjoint nb nB (j + w0) (y + w0) b i hb hi (by omega)⟩
        simp only [flatStep, hd.1, hd.2, hph]
        rw [if_pos trivial]
        exact fillNone_get nb nB _ _ (j + w0) b i hb hi
    · exact ih (flatStep cfg p img w0 d x) (List.nodup_cons.mp hnd).2
        (fun z hz => hlt z (List.mem_cons_of_mem x hz))
        (fun z hz => hdim z (List.mem_cons_of_mem x hz)) hjr

-- Order of the fill events: the magnitude event of pass j immediately
-- precedes its phase event.

lemma passTrace_eq (u : Bool) (w0 : Nat) :
    ∀ (L : List Nat) (acc : List (Nat × Bool)),
      L.foldl (fun acc j => (acc ++ [(j, false)])
          ++ (if u then [(j + w0, true)] else [])) acc
        = acc ++ L.flatMap (fun j => (j, false) :: (if u then [(j + w0, true)] else [])) := by
  intro L
  induction L with
  | nil => intro acc; simp
  | cons j rest ih =>
    intro acc
    rw [List.foldl_cons, ih, List.flatMap_cons]
    simp [List.append_assoc]

lemma passTrace_order (w0 j : Nat) (hj : j < w0) :
    ∃ l1 l2, passTrace true w0 = l1 ++ (j, false) :: (j + w0, true) :: l2 := by
  unfold passTrace
  rw [passTrace_eq]
  rcases List.append_of_mem (List.mem_range.mpr hj) with ⟨s, t, hst⟩
  rw [hst, List.flatMap_append, List.flatMap_cons]
  refine ⟨s.flatMap (fun j => (j, false) :: (if true then [(j + w0, true)] else [])),
    t.flatMap (fun j => (j, false) :: (if true then [(j + w0, true)] else [])), ?_⟩
  simp

lemma denseShape_none (x y z : Nat) : denseShape none x y z = [x * y * z] := rfl

lemma allocArr_one (p : Prims) (x : Nat) : allocArr p [x] = FeatArray.one x p.alloc1 := rfl

/-- C4: jet_length equals the wavelet count without phases and twice the
wavelet count with phases; with phases and split None, position
(j + wavelet_count)*n_bins*n_blocks + b*n_bins + i of the output holds the
phase-derived histogram entry of plane j while the first half holds the
magnitude-derived entry (for any primitives with uniform block counts);
and in the fill-event order of the loop the magnitude event of pass j
precedes its phase event j + wavelet_count. -/
theorem claimC4 (cfg : Config) (p : Prims) (st : LGBPHSState) (img : NpImage)
    (nb nB j b i n : Nat) :
    (cfg.usePhases = false → jetLength cfg = numberOfWavelets cfg)
  ∧ (cfg.usePhases = true → jetLength cfg = 2 * numberOfWavelets cfg)
  ∧ (cfg.split = none → cfg.usePhases = true → cfg.sparse = false →
      inputCheck img = true → numberOfWavelets cfg = n + 1 →
      (∀ y, y < numberOfWavelets cfg →
        (absBlocksOf cfg p img y).cols = nb ∧ (absBlocksOf cfg p img y).rows = nB) →
      j < numberOfWavelets cfg → b < nB → i < nb →
      resultAt (call cfg p st img).1 (j * nb * nB + b * nb + i)
          = (absBlocksOf cfg p img j).entry b i
      ∧ resultAt (call cfg p st img).1
            ((j + numberOfWavelets cfg) * nb * nB + b * nb + i)
          = (phaseBlocksOf cfg p img j).entry b i)
  ∧ (cfg.usePhases = true → j < numberOfWavelets cfg →
      ∃ l1 l2, passTrace cfg.usePhases (numberOfWavelets cfg)
        = l1 ++ (j, false) :: (j + numberOfWavelets cfg, true) :: l2) := by
  refine ⟨?_, ?_, ?_, ?_⟩
  · intro h
    rw [jetLength, h]
    simp
  · intro h
    rw [jetLength, h]
    simp [Nat.mul_comm]
  · intro hspl hph hsp hin hW huni hj hb hi
    have hres := call_result_ok cfg p st img (Or.inl hspl) hin
    rw [call_arr_final cfg p img (jetLength cfg) (numberOfWavelets cfg) n hW] at hres
    rw [hres]
    simp only [hsp, sparsifyArr_false, Except.map, hspl, denseShape_none, allocArr_one]
    rw [foldl_passFill_one cfg p img (numberOfWavelets cfg) hspl]
    simp only [resultAt, FeatArray.get1]
    exact foldl_flatStep_at cfg p img (numberOfWavelets cfg) nb nB j b i hph hj hb hi
      (List.range (numberOfWavelets cfg)) p.alloc1 (List.nodup_range _)
      (fun y hy => List.mem_range.mp hy)
      (fun y hy => huni y (List.mem_range.mp hy))
      (List.mem_range.mpr hj)
  · intro hph hj
    rw [hph]
    exact passTrace_order (numberOfWavelets cfg) j hj

/-- C4 witness: the phase-placement law applied to concrete primitives with
distinguishable magnitude (3) and phase (4) histograms on a
single-wavelet, phases-enabled configuration: flat position 0 holds the
magnitude entry and flat position 1 (second half) the phase entry. -/
theorem claimC4_witness :
    resultAt (call cfgPhase primsMagPhase st0 imgStd).1 (0 * 1 * 1 + 0 * 1 + 0)
        = (absBlocksOf cfgPhase primsMagPhase imgStd 0).entry 0 0
  ∧ resultAt (call cfgPhase primsMagPhase st0 imgStd).1
        ((0 + numberOfWavelets cfgPhase) * 1 * 1 + 0 * 1 + 0)
        = (phaseBlocksOf cfgPhase primsMagPhase imgStd 0).entry 0 0 :=
  (claimC4 cfgPhase primsMagPhase st0 imgStd 1 1 0 0 0 0).2.2.1 rfl rfl rfl (by decide)
    rfl (by decide) (by decide) (by decide) (by decide)
